import Mathlib

/-!
Shallow embedding of `src/ExampleFinCalc.py` (CothLabTools): a month-by-month
retirement & savings projection.  Amounts are modelled as rationals (the
Python source computes with real-number formulas); the Streamlit widgets are
modelled as a `Params` record supplying the validated inputs.
-/

namespace FinCalc

/-- One income period, as entered in the UI (lines 39-44 of the source). -/
structure IncomePeriod where
  start_year : ℤ
  end_year : ℤ
  monthly_income : ℚ
deriving DecidableEq

/-- One inheritance entry: the source stores `{"month": year * 12, "amount": amount}`
(line 32). -/
structure Inheritance where
  month : ℤ
  amount : ℚ
deriving DecidableEq

/-- The validated inputs supplied by the Streamlit widgets (lines 13-44). -/
structure Params where
  loan_balance : ℚ
  loan_payment : ℚ
  savings_rate : ℚ
  years : ℕ
  retirement_year : ℕ
  inheritances : List Inheritance
  income_schedule : List IncomePeriod

/-- Annual loan rate: `loan_interest_annual = 0.05` (line 50). -/
def loan_interest_annual : ℚ := 5 / 100

/-- Annual investment return: `investment_return_annual = 0.07` (line 51). -/
def investment_return_annual : ℚ := 7 / 100

/-- Monthly loan rate: `loan_interest_monthly = loan_interest_annual / 12` (line 52). -/
def loan_interest_monthly : ℚ := loan_interest_annual / 12

/-- Monthly investment return: `investment_return_monthly = investment_return_annual / 12` (line 53). -/
def investment_return_monthly : ℚ := investment_return_annual / 12

/-- Retirement cutoff: `retirement_month = retirement_year * 12` (line 55). -/
def retirement_month (P : Params) : ℤ := (P.retirement_year : ℤ) * 12

/-- Month `m` lies in the range written by a period's inner loop
(lines 63-65): `start_month = (start_year - 1) * 12 + 1` up to
`end_month = end_year * 12` inclusive. -/
def covers (p : IncomePeriod) (m : ℤ) : Prop :=
  (p.start_year - 1) * 12 + 1 ≤ m ∧ m ≤ p.end_year * 12

instance (p : IncomePeriod) (m : ℤ) : Decidable (covers p m) := by
  unfold covers; exact inferInstance

/-- The `income_by_month` dict (lines 61-67), viewed as a partial map from a
month index to the income amount.  Each period writes its months in order,
guarded by `month <= retirement_month`; a later write overwrites an earlier
one, exactly as dict assignment does. -/
def income_by_month (schedule : List IncomePeriod) (ret : ℤ) (m : ℤ) : Option ℚ :=
  schedule.foldl
    (fun acc p => if covers p m ∧ m ≤ ret then some p.monthly_income else acc)
    none

/-- Python's banker's rounding to the nearest integer (`round` with half to
even), on exact rationals. -/
def roundHalfEven (x : ℚ) : ℤ :=
  if x - ⌊x⌋ < 1 / 2 then ⌊x⌋
  else if 1 / 2 < x - ⌊x⌋ then ⌊x⌋ + 1
  else if 2 ∣ ⌊x⌋ then ⌊x⌋ else ⌊x⌋ + 1

/-- Python's `round(x, 2)`: round to two decimal places, half to even. -/
def pyRound2 (x : ℚ) : ℚ := (roundHalfEven (x * 100) : ℚ) / 100

/-- One output row (the dict appended to `rows` at lines 105-115). -/
structure MonthRecord where
  Year : ℕ
  Month : ℕ
  Income : ℚ
  LoanBalance : ℚ
  LoanPayment : ℚ
  RemainingIncome : ℚ
  SavedThisMonth : ℚ
  TotalInvested : ℚ
  Inheritance : ℚ
deriving DecidableEq

/-- The mutable state threaded through the simulation loop (lines 73-76):
`loan`, `invested`, `loan_paid_off_month`, `rows`. -/
structure SimState where
  loan : ℚ
  invested : ℚ
  loan_paid_off_month : Option ℕ
  rows : List MonthRecord
deriving DecidableEq

/-- Income lookup `current_income = income_by_month.get(month, 0)` (line 80). -/
def incomeAt (P : Params) (m : ℕ) : ℚ :=
  (income_by_month P.income_schedule (retirement_month P) (m : ℤ)).getD 0

/-- Inheritance sum `sum(inh["amount"] for inh in inheritances if inh["month"] == month)`
(line 100). -/
def inheritanceAt (P : Params) (m : ℕ) : ℚ :=
  ((P.inheritances.filter (fun inh => decide (inh.month = (m : ℤ)))).map
    (fun inh => inh.amount)).sum

/-- One iteration of the simulation loop (lines 78-115), month `month`. -/
def step (P : Params) (s : SimState) (month : ℕ) : SimState :=
  let year := (month - 1) / 12 + 1
  let current_income := incomeAt P month
  let loan1 := s.loan + s.loan * loan_interest_monthly
  let loan_payment_actual := min loan1 P.loan_payment
  let loan2 := loan1 - loan_payment_actual
  let paid_off :=
    if loan2 ≤ 0 ∧ s.loan_paid_off_month = none then some month
    else s.loan_paid_off_month
  let leftover := current_income - loan_payment_actual
  let savings_contrib := if loan2 ≤ 0 then leftover * P.savings_rate else (0 : ℚ)
  let inheritance_this_month := inheritanceAt P month
  let invested2 :=
    s.invested * (1 + investment_return_monthly) + savings_contrib + inheritance_this_month
  { loan := loan2
    invested := invested2
    loan_paid_off_month := paid_off
    rows := s.rows ++ [{
      Year := year
      Month := month
      Income := current_income
      LoanBalance := pyRound2 (max loan2 0)
      LoanPayment := pyRound2 loan_payment_actual
      RemainingIncome := pyRound2 leftover
      SavedThisMonth := pyRound2 savings_contrib
      TotalInvested := pyRound2 invested2
      Inheritance := inheritance_this_month }] }

/-- Initial state: `loan = loan_balance`, `invested = 0.0`, `rows = []`,
`loan_paid_off_month = None` (lines 73-76). -/
def initState (P : Params) : SimState :=
  { loan := P.loan_balance, invested := 0, loan_paid_off_month := none, rows := [] }

/-- State after the first `n` iterations of the loop (months 1..n). -/
def simAfter (P : Params) : ℕ → SimState
  | 0 => initState P
  | n + 1 => step P (simAfter P n) (n + 1)

/-- The whole loop `for month in range(1, months + 1)` with
`months = years * 12` (lines 54, 78). -/
def simulate (P : Params) : SimState :=
  (List.range' 1 (P.years * 12)).foldl (step P) (initState P)

/-- Loan balance after month `m`'s interest accrual (line 83), in terms of the
state before month `m`. -/
def loanAfterInterest (P : Params) (m : ℕ) : ℚ :=
  (simAfter P (m - 1)).loan + (simAfter P (m - 1)).loan * loan_interest_monthly

/-- Month `m`'s actual payment `min(loan, loan_payment)` (line 86). -/
def paymentAt (P : Params) (m : ℕ) : ℚ :=
  min (loanAfterInterest P m) P.loan_payment

/-- Loan balance after month `m`'s payment (line 87). -/
def loanAfterPay (P : Params) (m : ℕ) : ℚ :=
  loanAfterInterest P m - paymentAt P m

/-- Month `m`'s `leftover = current_income - loan_payment_actual` (line 94). -/
def leftoverAt (P : Params) (m : ℕ) : ℚ :=
  incomeAt P m - paymentAt P m

/-- Month `m`'s `savings_contrib` (line 97). -/
def savingsContribAt (P : Params) (m : ℕ) : ℚ :=
  if loanAfterPay P m ≤ 0 then leftoverAt P m * P.savings_rate else 0

/-- The row appended in month `m` (lines 105-115). -/
def rowAt (P : Params) (m : ℕ) : MonthRecord :=
  { Year := (m - 1) / 12 + 1
    Month := m
    Income := incomeAt P m
    LoanBalance := pyRound2 (max (loanAfterPay P m) 0)
    LoanPayment := pyRound2 (paymentAt P m)
    RemainingIncome := pyRound2 (leftoverAt P m)
    SavedThisMonth := pyRound2 (savingsContribAt P m)
    TotalInvested := pyRound2 ((simAfter P m).invested)
    Inheritance := inheritanceAt P m }

/-! ### Bridging lemmas between the loop state and the per-month quantities -/

lemma simAfter_succ_loan (P : Params) (n : ℕ) :
    (simAfter P (n + 1)).loan = loanAfterPay P (n + 1) := rfl

lemma simAfter_succ_invested (P : Params) (n : ℕ) :
    (simAfter P (n + 1)).invested =
      (simAfter P n).invested * (1 + investment_return_monthly) +
        savingsContribAt P (n + 1) + inheritanceAt P (n + 1) := rfl

lemma simAfter_succ_paid (P : Params) (n : ℕ) :
    (simAfter P (n + 1)).loan_paid_off_month =
      if loanAfterPay P (n + 1) ≤ 0 ∧ (simAfter P n).loan_paid_off_month = none
      then some (n + 1)
      else (simAfter P n).loan_paid_off_month := rfl

lemma simAfter_succ_rows (P : Params) (n : ℕ) :
    (simAfter P (n + 1)).rows = (simAfter P n).rows ++ [rowAt P (n + 1)] := rfl

lemma simulate_eq_simAfter (P : Params) : simulate P = simAfter P (P.years * 12) := by
  suffices h : ∀ n, (List.range' 1 n).foldl (step P) (initState P) = simAfter P n by
    exact h _
  intro n
  induction n with
  | zero => rfl
  | succ k ih =>
      rw [List.range'_concat, List.foldl_append, ih]
      simp only [List.foldl_cons, List.foldl_nil]
      rw [show 1 + 1 * k = k + 1 by omega]
      rfl

lemma rows_eq (P : Params) (n : ℕ) :
    (simAfter P n).rows = (List.range' 1 n).map (rowAt P) := by
  induction n with
  | zero => rfl
  | succ k ih =>
      rw [simAfter_succ_rows, ih, List.range'_concat, List.map_append]
      simp only [List.map_cons, List.map_nil]
      rw [show 1 + 1 * k = k + 1 by omega]

lemma paid_eq_find (P : Params) (n : ℕ) :
    (simAfter P n).loan_paid_off_month =
      (List.range' 1 n).find? (fun k => decide (loanAfterPay P k ≤ 0)) := by
  induction n with
  | zero => rfl
  | succ k ih =>
      rw [simAfter_succ_paid, ih, List.range'_concat, List.find?_append]
      rw [show 1 + 1 * k = k + 1 by omega]
      rcases h : (List.range' 1 k).find? (fun j => decide (loanAfterPay P j ≤ 0)) with _ | p
      · by_cases hle : loanAfterPay P (k + 1) ≤ 0
        · simp [hle]
        · simp [hle]
      · simp

lemma loanAfterPay_nonneg (P : Params) (m : ℕ) : 0 ≤ loanAfterPay P m := by
  unfold loanAfterPay paymentAt
  exact sub_nonneg.mpr (min_le_left _ _)

lemma simAfter_loan_nonneg (P : Params) (h0 : 0 ≤ P.loan_balance) (n : ℕ) :
    0 ≤ (simAfter P n).loan := by
  cases n with
  | zero => exact h0
  | succ k => rw [simAfter_succ_loan]; exact loanAfterPay_nonneg P (k + 1)

lemma loan_zero_step (P : Params) (hlp : 0 ≤ P.loan_payment) (n : ℕ)
    (h : (simAfter P n).loan = 0) : (simAfter P (n + 1)).loan = 0 := by
  rw [simAfter_succ_loan]
  unfold loanAfterPay paymentAt loanAfterInterest
  rw [Nat.add_sub_cancel, h]
  rw [zero_mul, add_zero, min_eq_left hlp]
  ring

lemma loan_stays_zero (P : Params) (hlp : 0 ≤ P.loan_payment) (n : ℕ)
    (h : (simAfter P n).loan = 0) : ∀ k, n ≤ k → (simAfter P k).loan = 0 := by
  intro k hk
  induction k, hk using Nat.le_induction with
  | base => exact h
  | succ j hj ih => exact loan_zero_step P hlp j ih

lemma roundHalfEven_nonneg (x : ℚ) (hx : 0 ≤ x) : 0 ≤ roundHalfEven x := by
  have hfloor : (0 : ℤ) ≤ ⌊x⌋ := Int.floor_nonneg.mpr hx
  unfold roundHalfEven
  split
  · exact hfloor
  · split
    · omega
    · split
      · exact hfloor
      · omega

lemma pyRound2_nonneg (x : ℚ) (hx : 0 ≤ x) : 0 ≤ pyRound2 x := by
  unfold pyRound2
  have h := roundHalfEven_nonneg (x * 100) (by positivity)
  positivity

/-! ### Characterisation of the income-by-month map -/

lemma income_foldl (m ret : ℤ) (l : List IncomePeriod) (acc : Option ℚ) :
    l.foldl
      (fun acc p => if covers p m ∧ m ≤ ret then some p.monthly_income else acc)
      acc
    = match (l.filter (fun p => decide (covers p m ∧ m ≤ ret))).getLast? with
      | some p => some p.monthly_income
      | none => acc := by
  induction l generalizing acc with
  | nil => rfl
  | cons q l ih =>
      rw [List.foldl_cons, ih]
      by_cases hq : covers q m ∧ m ≤ ret
      · rw [List.filter_cons_of_pos (by simpa using hq)]
        rcases hfl : l.filter (fun p => decide (covers p m ∧ m ≤ ret)) with _ | ⟨p, t⟩
        · simp [hq]
        · rcases h2 : (p :: t).getLast? with _ | a
          · exact absurd (List.getLast?_eq_none_iff.mp h2) (by simp)
          · rw [List.getLast?_cons_cons, h2]
      · rw [List.filter_cons_of_neg (by simpa using hq)]
        rcases hfl : (l.filter (fun p => decide (covers p m ∧ m ≤ ret))).getLast? with _ | p
        · simp [hq]
        · rfl

lemma income_by_month_eq (schedule : List IncomePeriod) (ret m : ℤ) :
    income_by_month schedule ret m =
      if m ≤ ret
      then ((schedule.filter (fun p => decide (covers p m))).getLast?).map
        IncomePeriod.monthly_income
      else none := by
  unfold income_by_month
  rw [income_foldl]
  by_cases hret : m ≤ ret
  · rw [if_pos hret]
    have hfil : schedule.filter (fun p => decide (covers p m ∧ m ≤ ret))
        = schedule.filter (fun p => decide (covers p m)) :=
      List.filter_congr (fun p _ => by simp [hret])
    rw [hfil]
    rcases h : (schedule.filter (fun p => decide (covers p m))).getLast? with _ | p
    · rfl
    · rfl
  · rw [if_neg hret]
    have : schedule.filter (fun p => decide (covers p m ∧ m ≤ ret)) = [] := by
      apply List.filter_eq_nil_iff.mpr
      intro p _
      simp [hret]
    rw [this]
    rfl

/-! ### Witness inputs -/

/-- Witness parameter set: zero loan, standard payment and savings rate,
five-year horizon, no inheritances, empty income schedule. -/
def PW : Params :=
  { loan_balance := 0, loan_payment := 500, savings_rate := 1 / 5, years := 5,
    retirement_year := 1, inheritances := [], income_schedule := [] }

/-- Witness parameter set with one inheritance of 50000 in year 1 (month 12). -/
def PInh : Params :=
  { loan_balance := 0, loan_payment := 500, savings_rate := 1 / 5, years := 5,
    retirement_year := 1, inheritances := [{ month := 12, amount := 50000 }],
    income_schedule := [] }

/-! ### Claim theorems -/

/-- C1: in every month the savings contribution equals leftover times
`savings_rate` when the post-payment loan balance is `≤ 0` and `0` otherwise,
leftover is income minus the actual payment (not clamped), and the invested
balance is updated by `invested = invested * (1 + 0.07/12) + savings_contrib +
inheritance`, starting from `invested = 0`. -/
theorem C1_savings_and_invested_update (P : Params) (m : ℕ) (h : 1 ≤ m) :
    (simAfter P 0).invested = 0 ∧
    savingsContribAt P m =
      (if loanAfterPay P m ≤ 0
       then (incomeAt P m - paymentAt P m) * P.savings_rate else 0) ∧
    leftoverAt P m = incomeAt P m - paymentAt P m ∧
    (simAfter P m).invested =
      (simAfter P (m - 1)).invested * (1 + 7 / 100 / 12) +
        savingsContribAt P m + inheritanceAt P m := by
  obtain ⟨n, rfl⟩ : ∃ n, m = n + 1 := ⟨m - 1, by omega⟩
  exact ⟨rfl, rfl, rfl, rfl⟩

/-- Witness for C1 at `PW`, month 1. -/
theorem C1_witness :
    1 ≤ 1 ∧
    ((simAfter PW 0).invested = 0 ∧
     savingsContribAt PW 1 =
       (if loanAfterPay PW 1 ≤ 0
        then (incomeAt PW 1 - paymentAt PW 1) * PW.savings_rate else 0) ∧
     leftoverAt PW 1 = incomeAt PW 1 - paymentAt PW 1 ∧
     (simAfter PW 1).invested =
       (simAfter PW 0).invested * (1 + 7 / 100 / 12) +
         savingsContribAt PW 1 + inheritanceAt PW 1) :=
  ⟨le_refl 1, C1_savings_and_invested_update PW 1 (le_refl 1)⟩

/-- C2: in every month the loan first accrues interest at `0.05/12`, then the
actual payment is `min(post-interest loan, fixed payment)` and is subtracted;
the payment never exceeds the post-interest balance and the resulting balance
is never negative. -/
theorem C2_interest_then_payment (P : Params) (m : ℕ) (h : 1 ≤ m) :
    loanAfterInterest P m =
      (simAfter P (m - 1)).loan + (simAfter P (m - 1)).loan * (5 / 100 / 12) ∧
    paymentAt P m = min (loanAfterInterest P m) P.loan_payment ∧
    (simAfter P m).loan = loanAfterInterest P m - paymentAt P m ∧
    paymentAt P m ≤ loanAfterInterest P m ∧
    0 ≤ (simAfter P m).loan := by
  obtain ⟨n, rfl⟩ : ∃ n, m = n + 1 := ⟨m - 1, by omega⟩
  refine ⟨rfl, rfl, simAfter_succ_loan P n, min_le_left _ _, ?_⟩
  rw [simAfter_succ_loan]
  exact loanAfterPay_nonneg P (n + 1)

/-- Witness for C2 at `PW`, month 1. -/
theorem C2_witness :
    1 ≤ 1 ∧
    (loanAfterInterest PW 1 =
       (simAfter PW 0).loan + (simAfter PW 0).loan * (5 / 100 / 12) ∧
     paymentAt PW 1 = min (loanAfterInterest PW 1) PW.loan_payment ∧
     (simAfter PW 1).loan = loanAfterInterest PW 1 - paymentAt PW 1 ∧
     paymentAt PW 1 ≤ loanAfterInterest PW 1 ∧
     0 ≤ (simAfter PW 1).loan) :=
  ⟨le_refl 1, C2_interest_then_payment PW 1 (le_refl 1)⟩

/-- C3: for every number of elapsed months, the recorded payoff month is the
first month whose post-payment loan balance is `≤ 0` (and `none` when no such
month has occurred): it is recorded exactly once and never overwritten. -/
theorem C3_payoff_month_is_first (P : Params) (n : ℕ) :
    (simAfter P n).loan_paid_off_month =
      (List.range' 1 n).find? (fun k => decide (loanAfterPay P k ≤ 0)) :=
  paid_eq_find P n

/-- C4: the income map sends month `m` to the monthly income of the last
period in input order whose year range covers `m`, provided `m` is at most the
retirement month; months beyond retirement, and months covered by no period,
are absent. -/
theorem C4_income_map_characterisation (schedule : List IncomePeriod) (ret m : ℤ) :
    income_by_month schedule ret m =
      if m ≤ ret
      then ((schedule.filter (fun p => decide (covers p m))).getLast?).map
        IncomePeriod.monthly_income
      else none :=
  income_by_month_eq schedule ret m

/-! ### Helpers for summation claims -/

lemma sum_map_add_split {α : Type} (l : List α) (f g : α → ℚ) :
    (l.map (fun a => f a + g a)).sum = (l.map f).sum + (l.map g).sum := by
  induction l with
  | nil => simp
  | cons a l ih => simp only [List.map_cons, List.sum_cons, ih]; ring

lemma sum_indicator_range' (μ : ℕ) (a : ℚ) (h1 : 1 ≤ μ) :
    ∀ N, μ ≤ N →
      ((List.range' 1 N).map (fun m => if μ = m then a else 0)).sum = a := by
  intro N
  induction N with
  | zero => intro h2; omega
  | succ k ih =>
      intro h2
      rw [List.range'_concat, List.map_append, List.sum_append]
      rw [show 1 + 1 * k = k + 1 by omega]
      simp only [List.map_cons, List.map_nil, List.sum_cons, List.sum_nil]
      by_cases hc : μ = k + 1
      · have hz : ((List.range' 1 k).map (fun m => if μ = m then a else 0)).sum = 0 := by
          apply List.sum_eq_zero
          intro x hx
          obtain ⟨m, hm, rfl⟩ := List.mem_map.mp hx
          have hmk := List.mem_range'_1.mp hm
          rw [if_neg (by omega)]
        rw [hz, if_pos hc, zero_add, add_zero]
      · rw [if_neg hc, add_zero, add_zero]
        exact ih (by omega)

lemma inh_sum_swap (N : ℕ) (l : List Inheritance)
    (h : ∀ i ∈ l, ∃ μ : ℕ, 1 ≤ μ ∧ μ ≤ N ∧ i.month = (μ : ℤ)) :
    ((List.range' 1 N).map (fun m : ℕ =>
        ((l.filter (fun inh => decide (inh.month = (m : ℤ)))).map
          (fun inh => inh.amount)).sum)).sum
      = (l.map (fun inh => inh.amount)).sum := by
  induction l with
  | nil => simp
  | cons i l ih =>
      obtain ⟨μ, hμ1, hμN, hmonth⟩ := h i (List.mem_cons_self ..)
      have hrest := fun j hj => h j (List.mem_cons_of_mem _ hj)
      have hsplit : ∀ m : ℕ,
          (((i :: l).filter (fun inh => decide (inh.month = (m : ℤ)))).map
            (fun inh => inh.amount)).sum
          = (if i.month = (m : ℤ) then i.amount else 0) +
            ((l.filter (fun inh => decide (inh.month = (m : ℤ)))).map
              (fun inh => inh.amount)).sum := by
        intro m
        by_cases hc : i.month = (m : ℤ)
        · rw [List.filter_cons_of_pos (by simpa using hc), List.map_cons,
            List.sum_cons, if_pos hc]
        · rw [List.filter_cons_of_neg (by simpa using hc), if_neg hc, zero_add]
      rw [List.map_congr_left (fun m _ => hsplit m), sum_map_add_split, ih hrest]
      simp only [List.map_cons, List.sum_cons]
      congr 1
      have hind : (fun m : ℕ => if i.month = (m : ℤ) then i.amount else 0)
          = fun m : ℕ => if μ = m then i.amount else 0 := by
        funext m
        rw [hmonth]
        by_cases hc : μ = m
        · rw [if_pos (by exact_mod_cast hc), if_pos hc]
        · rw [if_neg (by exact_mod_cast hc), if_neg hc]
      rw [hind]
      exact sum_indicator_range' μ i.amount hμ1 N hμN

/-! ### Claim theorems (continued) -/

/-- C5: for every valid input the projection emits exactly `years*12` records,
whose `Month` fields are `1, 2, …, years*12` in order and whose `Year` field is
`(month - 1) / 12 + 1`. -/
theorem C5_record_count_and_order (P : Params) (h5 : 5 ≤ P.years) (h40 : P.years ≤ 40) :
    (simulate P).rows.length = P.years * 12 ∧
    ∀ i (hi : i < (simulate P).rows.length),
      ((simulate P).rows.get ⟨i, hi⟩).Month = i + 1 ∧
      ((simulate P).rows.get ⟨i, hi⟩).Year = (i + 1 - 1) / 12 + 1 := by
  rw [simulate_eq_simAfter, rows_eq]
  refine ⟨by simp, ?_⟩
  intro i hi
  simp only [List.get_eq_getElem, List.getElem_map, List.getElem_range']
  constructor
  · show 1 + 1 * i = i + 1
    omega
  · show (1 + 1 * i - 1) / 12 + 1 = (i + 1 - 1) / 12 + 1
    omega

/-- Witness for C5 at `PW`. -/
theorem C5_witness :
    5 ≤ PW.years ∧ PW.years ≤ 40 ∧
    ((simulate PW).rows.length = PW.years * 12 ∧
     ∀ i (hi : i < (simulate PW).rows.length),
       ((simulate PW).rows.get ⟨i, hi⟩).Month = i + 1 ∧
       ((simulate PW).rows.get ⟨i, hi⟩).Year = (i + 1 - 1) / 12 + 1) :=
  ⟨by decide, by decide, C5_record_count_and_order PW (by decide) (by decide)⟩

/-- C6: once a payoff month is recorded, every month at or after it takes the
savings branch: the savings contribution is leftover times `savings_rate`, and
the emitted `SavedThisMonth` is that product (rounded for display). -/
theorem C6_savings_never_skipped_after_payoff (P : Params) (hlp : 0 ≤ P.loan_payment)
    (n p m : ℕ) (hrec : (simAfter P n).loan_paid_off_month = some p) (hpm : p ≤ m) :
    savingsContribAt P m = leftoverAt P m * P.savings_rate ∧
    (rowAt P m).SavedThisMonth = pyRound2 (leftoverAt P m * P.savings_rate) := by
  rw [paid_eq_find] at hrec
  have hp_le : loanAfterPay P p ≤ 0 := by simpa using List.find?_some hrec
  have hp_mem : p ∈ List.range' 1 n := List.mem_of_find?_eq_some hrec
  have hp1 : 1 ≤ p := (List.mem_range'_1.mp hp_mem).1
  have hploan : (simAfter P p).loan = 0 := by
    obtain ⟨q, rfl⟩ : ∃ q, p = q + 1 := ⟨p - 1, by omega⟩
    rw [simAfter_succ_loan]
    exact le_antisymm hp_le (loanAfterPay_nonneg P (q + 1))
  have hm0 : (simAfter P m).loan = 0 := loan_stays_zero P hlp p hploan m hpm
  obtain ⟨k, rfl⟩ : ∃ k, m = k + 1 := ⟨m - 1, by omega⟩
  have hzero : loanAfterPay P (k + 1) = 0 := by rw [← simAfter_succ_loan, hm0]
  have hc : savingsContribAt P (k + 1) = leftoverAt P (k + 1) * P.savings_rate := by
    unfold savingsContribAt
    rw [if_pos (le_of_eq hzero)]
  refine ⟨hc, ?_⟩
  show pyRound2 (savingsContribAt P (k + 1)) = pyRound2 (leftoverAt P (k + 1) * P.savings_rate)
  rw [hc]

/-- Witness for C6 at `PW` (loan starts at 0, so the payoff month is 1). -/
theorem C6_witness :
    0 ≤ PW.loan_payment ∧ (simAfter PW 1).loan_paid_off_month = some 1 ∧ 1 ≤ 1 ∧
    (savingsContribAt PW 1 = leftoverAt PW 1 * PW.savings_rate ∧
     (rowAt PW 1).SavedThisMonth = pyRound2 (leftoverAt PW 1 * PW.savings_rate)) :=
  ⟨by with_unfolding_all decide, by with_unfolding_all decide, le_refl 1,
    C6_savings_never_skipped_after_payoff PW (by with_unfolding_all decide) 1 1 1
      (by with_unfolding_all decide) (le_refl 1)⟩

/-- C7: when every inheritance is scheduled at month `year*12` for some
`1 ≤ year ≤ years`, the sum of the emitted `Inheritance` fields equals the sum
of the input inheritance amounts: nothing is lost or double-counted, and
coinciding inheritances are summed into a single record. -/
theorem C7_inheritance_conservation (P : Params)
    (h : ∀ inh ∈ P.inheritances, ∃ y : ℤ, 1 ≤ y ∧ y ≤ (P.years : ℤ) ∧ inh.month = y * 12) :
    ((simulate P).rows.map MonthRecord.Inheritance).sum =
      (P.inheritances.map (fun inh => inh.amount)).sum := by
  rw [simulate_eq_simAfter, rows_eq, List.map_map]
  have hrow : (MonthRecord.Inheritance ∘ rowAt P) = fun m : ℕ =>
      ((P.inheritances.filter (fun inh => decide (inh.month = (m : ℤ)))).map
        (fun inh => inh.amount)).sum := rfl
  rw [hrow]
  apply inh_sum_swap
  intro i hi
  obtain ⟨y, hy1, hy2, hmonth⟩ := h i hi
  refine ⟨(y * 12).toNat, by omega, by omega, by omega⟩

/-- Witness for C7: one inheritance of 50000 at month 12 with a five-year
horizon. -/
theorem C7_witness :
    (∀ inh ∈ PInh.inheritances,
      ∃ y : ℤ, 1 ≤ y ∧ y ≤ (PInh.years : ℤ) ∧ inh.month = y * 12) ∧
    ((simulate PInh).rows.map MonthRecord.Inheritance).sum =
      (PInh.inheritances.map (fun inh => inh.amount)).sum := by
  have h : ∀ inh ∈ PInh.inheritances,
      ∃ y : ℤ, 1 ≤ y ∧ y ≤ (PInh.years : ℤ) ∧ inh.month = y * 12 := by
    intro inh hinh
    rw [List.mem_singleton.mp hinh]
    exact ⟨1, by decide, by decide, by decide⟩
  exact ⟨h, C7_inheritance_conservation PInh h⟩

/-- C8: every emitted record's `LoanBalance` field is nonnegative. -/
theorem C8_loan_balance_nonneg (P : Params) (r : MonthRecord)
    (hr : r ∈ (simulate P).rows) : 0 ≤ r.LoanBalance := by
  rw [simulate_eq_simAfter, rows_eq] at hr
  obtain ⟨m, hm, rfl⟩ := List.mem_map.mp hr
  show 0 ≤ pyRound2 (max (loanAfterPay P m) 0)
  exact pyRound2_nonneg _ (le_max_right _ _)

/-- Witness for C8: the first row of the `PW` run. -/
theorem C8_witness :
    rowAt PW 1 ∈ (simulate PW).rows ∧ 0 ≤ (rowAt PW 1).LoanBalance := by
  have hmem : rowAt PW 1 ∈ (simulate PW).rows := by
    rw [simulate_eq_simAfter, rows_eq]
    exact List.mem_map_of_mem _ (by decide)
  exact ⟨hmem, C8_loan_balance_nonneg PW (rowAt PW 1) hmem⟩

/-! ### The C9 scenario: loan 20000, payment 500, no income, no savings -/

/-- Scenario parameters for C9: `loan_balance = 20000`, `loan_payment = 500`,
`savings_rate = 0`, empty income schedule (zero income every month), no
inheritances. -/
def P9 : Params :=
  { loan_balance := 20000, loan_payment := 500, savings_rate := 0, years := 20,
    retirement_year := 1, inheritances := [], income_schedule := [] }

lemma P9_step_lt (L : ℚ) (h0 : 0 < L) (hb : L ≤ 20000) :
    L + L * loan_interest_monthly - min (L + L * loan_interest_monthly) 500 < L := by
  rcases le_or_lt (L + L * loan_interest_monthly) 500 with h | h
  · rw [min_eq_left h]
    simpa using h0
  · rw [min_eq_right h.le]
    have hr : (0 : ℚ) ≤ loan_interest_monthly := by
      norm_num [loan_interest_monthly, loan_interest_annual]
    have hmul : L * loan_interest_monthly ≤ 20000 * loan_interest_monthly :=
      mul_le_mul_of_nonneg_right hb hr
    have h20 : (20000 : ℚ) * loan_interest_monthly < 500 := by
      norm_num [loan_interest_monthly, loan_interest_annual]
    linarith

lemma P9_step_le (L : ℚ) (h0 : 0 ≤ L) (hb : L ≤ 20000) :
    L + L * loan_interest_monthly - min (L + L * loan_interest_monthly) 500 ≤ 20000 := by
  rcases le_or_lt (L + L * loan_interest_monthly) 500 with h | h
  · rw [min_eq_left h]
    norm_num
  · rw [min_eq_right h.le]
    have hr : (0 : ℚ) ≤ loan_interest_monthly := by
      norm_num [loan_interest_monthly, loan_interest_annual]
    have hmul : L * loan_interest_monthly ≤ 20000 * loan_interest_monthly :=
      mul_le_mul_of_nonneg_right hb hr
    have h20 : (20000 : ℚ) * loan_interest_monthly < 500 := by
      norm_num [loan_interest_monthly, loan_interest_annual]
    linarith

lemma P9_loan_bounds : ∀ n, 0 ≤ (simAfter P9 n).loan ∧ (simAfter P9 n).loan ≤ 20000 := by
  intro n
  induction n with
  | zero =>
      constructor
      · show (0 : ℚ) ≤ P9.loan_balance
        norm_num [P9]
      · show P9.loan_balance ≤ 20000
        norm_num [P9]
  | succ k ih =>
      obtain ⟨h0k, hbk⟩ := ih
      refine ⟨by rw [simAfter_succ_loan]; exact loanAfterPay_nonneg P9 (k + 1), ?_⟩
      rw [simAfter_succ_loan]
      unfold loanAfterPay loanAfterInterest paymentAt
      rw [Nat.add_sub_cancel]
      rw [show P9.loan_payment = 500 from rfl]
      exact P9_step_le _ h0k hbk

/-! ### Claim theorems (scenario and internal invariants) -/

/-- C9: in the scenario with loan 20000, payment 500, 5%/12 monthly rate, zero
income and zero savings rate, the loan balance strictly decreases month over
month while it is positive, stays exactly 0 from the month it reaches 0, and
the recorded payoff month is the first month whose post-interest,
post-payment balance is `≤ 0`. -/
theorem C9_scenario_loan_decreases_to_zero :
    (∀ m, 1 ≤ m → 0 < (simAfter P9 (m - 1)).loan →
      (simAfter P9 m).loan < (simAfter P9 (m - 1)).loan) ∧
    (∀ m k, (simAfter P9 m).loan = 0 → m ≤ k → (simAfter P9 k).loan = 0) ∧
    (∀ n, (simAfter P9 n).loan_paid_off_month =
      (List.range' 1 n).find? (fun j => decide (loanAfterPay P9 j ≤ 0))) := by
  refine ⟨?_, ?_, fun n => paid_eq_find P9 n⟩
  · intro m hm hpos
    obtain ⟨n, rfl⟩ : ∃ n, m = n + 1 := ⟨m - 1, by omega⟩
    rw [Nat.add_sub_cancel] at hpos ⊢
    rw [simAfter_succ_loan]
    unfold loanAfterPay loanAfterInterest paymentAt
    rw [Nat.add_sub_cancel]
    rw [show P9.loan_payment = 500 from rfl]
    exact P9_step_lt _ hpos (P9_loan_bounds n).2
  · intro m k hz hk
    exact loan_stays_zero P9 (by norm_num [P9]) m hz k hk

set_option maxRecDepth 10000 in
/-- Witness for C9: the balance drops in month 1, is exactly 0 at month 44 (the
payoff month) and stays 0 at month 45, and the payoff recording matches the
first-month characterisation at horizon 1. -/
theorem C9_witness :
    (1 ≤ 1 ∧ 0 < (simAfter P9 0).loan ∧ (simAfter P9 1).loan < (simAfter P9 0).loan) ∧
    ((simAfter P9 44).loan = 0 ∧ 44 ≤ 45 ∧ (simAfter P9 45).loan = 0) ∧
    ((simAfter P9 1).loan_paid_off_month =
      (List.range' 1 1).find? (fun j => decide (loanAfterPay P9 j ≤ 0))) := by
  have h0 : 0 < (simAfter P9 0).loan := by with_unfolding_all decide
  have h44 : (simAfter P9 44).loan = 0 := by with_unfolding_all decide
  exact ⟨⟨le_refl 1, h0, C9_scenario_loan_decreases_to_zero.1 1 (le_refl 1) h0⟩,
    ⟨h44, by omega, C9_scenario_loan_decreases_to_zero.2.1 44 45 h44 (by omega)⟩,
    C9_scenario_loan_decreases_to_zero.2.2 1⟩

/-- C10: for nonnegative initial balance and payment, the internal loan value
is nonnegative after interest accrual and after payment in every month, stays
exactly 0 once it reaches 0, the `max(loan, 0)` clamp never changes the value,
and the emitted `LoanBalance` equals `round(loan, 2)` of the internal state. -/
theorem C10_internal_loan_never_negative (P : Params) (h0 : 0 ≤ P.loan_balance)
    (hlp : 0 ≤ P.loan_payment) (m : ℕ) (hm : 1 ≤ m) :
    0 ≤ loanAfterInterest P m ∧
    0 ≤ (simAfter P m).loan ∧
    ((simAfter P m).loan = 0 → ∀ k, m ≤ k → (simAfter P k).loan = 0) ∧
    max ((simAfter P m).loan) 0 = (simAfter P m).loan ∧
    (rowAt P m).LoanBalance = pyRound2 ((simAfter P m).loan) := by
  obtain ⟨n, rfl⟩ : ∃ n, m = n + 1 := ⟨m - 1, by omega⟩
  have hprev : 0 ≤ (simAfter P n).loan := simAfter_loan_nonneg P h0 n
  have hint : 0 ≤ loanAfterInterest P (n + 1) := by
    unfold loanAfterInterest
    rw [Nat.add_sub_cancel]
    have hr : (0 : ℚ) ≤ loan_interest_monthly := by
      norm_num [loan_interest_monthly, loan_interest_annual]
    exact add_nonneg hprev (mul_nonneg hprev hr)
  have hcur : 0 ≤ (simAfter P (n + 1)).loan := by
    rw [simAfter_succ_loan]
    exact loanAfterPay_nonneg P (n + 1)
  refine ⟨hint, hcur, fun hz k hk => loan_stays_zero P hlp (n + 1) hz k hk,
    max_eq_left hcur, ?_⟩
  show pyRound2 (max (loanAfterPay P (n + 1)) 0) = pyRound2 ((simAfter P (n + 1)).loan)
  rw [simAfter_succ_loan, max_eq_left (loanAfterPay_nonneg P (n + 1))]

/-- Witness for C10 at `PW`, month 1. -/
theorem C10_witness :
    0 ≤ PW.loan_balance ∧ 0 ≤ PW.loan_payment ∧ 1 ≤ 1 ∧
    (0 ≤ loanAfterInterest PW 1 ∧
     0 ≤ (simAfter PW 1).loan ∧
     ((simAfter PW 1).loan = 0 → ∀ k, 1 ≤ k → (simAfter PW k).loan = 0) ∧
     max ((simAfter PW 1).loan) 0 = (simAfter PW 1).loan ∧
     (rowAt PW 1).LoanBalance = pyRound2 ((simAfter PW 1).loan)) :=
  ⟨by norm_num [PW], by norm_num [PW], le_refl 1,
    C10_internal_loan_never_negative PW (by norm_num [PW]) (by norm_num [PW]) 1 (le_refl 1)⟩

end FinCalc
